import Mathlib

/-!
Shallow embedding of the `rsm` Go package (file `rsm.go`): a small
finite-state-machine engine with staged event handlers, a retrying
transition wrapper and an external cancellation signal.

Modelling conventions:
* Go `string` states become `String`; the `error` values produced by the
  package are all built with `errors.New(fmt.Sprintf(...))`, so errors are
  modelled as `Option String` (`none` = Go `nil`).
* An event handler in Go is `func(*Event) error` and may observe and update
  external program state through its closure.  This effect is made explicit:
  a handler is a state-passing function over an arbitrary world type `σ`.
* The `RSM` back-pointer carried by `Event` lets a handler observe
  `e.RSM.CurrentState`; for non re-entrant handlers that observation is the
  engine state at the moment the event is built, recorded here in the field
  `RSMCurrentState`.  Re-entrant handler chaining is not modelled.
* The Go map `map[transitionKey][]EventHandler` is modelled as an
  association list with map semantics (`lookupKey` / `setKey`).
* `quit` is an unbuffered channel read by the `select` in
  `TransitWithRetries`; it is modelled as an oracle `cancelAt : Nat → Bool`
  saying whether the quit branch of the `select` fires during the cycle
  whose attempt counter is `i` (each loop cycle has a distinct counter).
  `Stop()` is the caller making that oracle fire.  Real time is not
  modelled; the call `time.After(r.RetryWaitTime(i))` is recorded by
  logging the argument `i` passed to the backoff function on every cycle.
* The `for`/`select` loop runs on fuel; `none` means the fuel ran out
  before the loop returned.
-/

namespace Rsm

/-- Stage constants, from the Go `iota` block. -/
def StageBefore : Nat := 0

/-- Stage constant `StageInProgress = 1`. -/
def StageInProgress : Nat := 1

/-- Stage constant `StageAfter = 2`. -/
def StageAfter : Nat := 2

/-- The Go `Event` struct.  `Args` is the heterogeneous variadic argument
list, modelled over an arbitrary element type `α`.  `RSMCurrentState`
models the observation `e.RSM.CurrentState` available through the engine
back-pointer at the moment the event is constructed. -/
structure Event (α : Type) where
  Stage : Nat
  Src : String
  Dest : String
  Args : List α
  RSMCurrentState : String

/-- A Go `EventHandler` (`func(*Event) error`) with its closure effects made
explicit: it reads the event, transforms an external world `σ` and returns
an optional error string. -/
abbrev EventHandler (σ α : Type) := Event α → σ → σ × Option String

/-- The Go `NilHandler`, which does nothing and returns `nil`. -/
def NilHandler {σ α : Type} : EventHandler σ α := fun _ w => (w, none)

/-- The Go `transitionKey` struct: (start state, end state, stage). -/
structure transitionKey where
  startState : String
  endState : String
  stage : Nat
deriving DecidableEq

/-- Lookup in the association-list model of the Go map
`map[transitionKey][]EventHandler`. -/
def lookupKey {σ α : Type} :
    List (transitionKey × List (EventHandler σ α)) → transitionKey →
    Option (List (EventHandler σ α))
  | [], _ => none
  | (k', v) :: rest, k => if k = k' then some v else lookupKey rest k

/-- Map update (insert or replace) in the association-list model of the Go
map. -/
def setKey {σ α : Type} :
    List (transitionKey × List (EventHandler σ α)) → transitionKey →
    List (EventHandler σ α) → List (transitionKey × List (EventHandler σ α))
  | [], k, v => [(k, v)]
  | (k', v') :: rest, k, v =>
      if k = k' then (k, v) :: rest else (k', v') :: setKey rest k v

/-- The Go `RSM` struct.  The `quit` channel is modelled externally as the
cancellation oracle passed to `TransitWithRetries`, and the opaque `Parent`
field (never read by the engine) is omitted.  `RetryWaitTime` returns a
duration in nanoseconds, modelled as `Nat`. -/
structure RSM (σ α : Type) where
  transitions : List (transitionKey × List (EventHandler σ α))
  beforeTransition : Option (EventHandler σ α)
  afterTransition : Option (EventHandler σ α)
  CurrentState : String
  RetryWaitTime : Nat → Nat
  MaxRetries : Nat

/-- The Go constructor `NewRSM`. -/
def NewRSM {σ α : Type} (currentState : String) (retriesWaitTime : Nat → Nat)
    (maxRetries : Nat) : RSM σ α :=
  { transitions := []
    beforeTransition := none
    afterTransition := none
    CurrentState := currentState
    RetryWaitTime := retriesWaitTime
    MaxRetries := maxRetries }

/-- The Go setter `BeforeTransitionHandler`, storing the global before-all
hook (single overwritable slot). -/
def BeforeTransitionHandler {σ α : Type} (r : RSM σ α)
    (handler : EventHandler σ α) : RSM σ α :=
  { r with beforeTransition := some handler }

/-- The Go setter `AfterTransitionHandler`, storing the global after-all
hook (single overwritable slot). -/
def AfterTransitionHandler {σ α : Type} (r : RSM σ α)
    (handler : EventHandler σ α) : RSM σ α :=
  { r with afterTransition := some handler }

/-- The Go `AddHandler`: append the handler to the list stored under
`(startState, endState, stage)`, creating the list if the key is absent. -/
def AddHandler {σ α : Type} (r : RSM σ α) (startState endState : String)
    (stage : Nat) (handler : EventHandler σ α) : RSM σ α :=
  match lookupKey r.transitions ⟨startState, endState, stage⟩ with
  | some handlers =>
      { r with
        transitions := setKey r.transitions ⟨startState, endState, stage⟩ (handlers ++ [handler]) }
  | none =>
      { r with
        transitions := setKey r.transitions ⟨startState, endState, stage⟩ [handler] }

/-- The Go `AddTransition`: a `nil` handler (modelled by `none`) is replaced
by `NilHandler`, then registered at stage `StageInProgress`. -/
def AddTransition {σ α : Type} (r : RSM σ α) (startState endState : String)
    (handler : Option (EventHandler σ α)) : RSM σ α :=
  AddHandler r startState endState StageInProgress (handler.getD NilHandler)

/-- The Go `CanTransitionTo`: true iff the map has an entry under
`(CurrentState, state, StageInProgress)`. -/
def CanTransitionTo {σ α : Type} (r : RSM σ α) (state : String) : Bool :=
  (lookupKey r.transitions ⟨r.CurrentState, state, StageInProgress⟩).isSome

/-- The error message built by `Transit` for an illegal transition. -/
def cannotTransitionMsg (src dst : String) : String :=
  "Cannot transition from " ++ src ++ " to " ++ dst

/-- Run an optional single-slot hook (Go: `if r.beforeTransition != nil
{ err = r.beforeTransition(event) ... }`); an absent hook is a no-op. -/
def runHook {σ α : Type} (h : Option (EventHandler σ α)) (e : Event α)
    (w : σ) : σ × Option String :=
  match h with
  | some handler => handler e w
  | none => (w, none)

/-- Run a list of handlers in order on the same event, stopping at the
first error (the Go `for` loops over Before/InProgress stage handlers with
`if err != nil { return err }`). -/
def runHandlers {σ α : Type} :
    List (EventHandler σ α) → Event α → σ → σ × Option String
  | [], _, w => (w, none)
  | h :: rest, e, w =>
      match h e w with
      | (w', some err) => (w', some err)
      | (w', none) => runHandlers rest e w'

/-- Run a list of handlers in order on the same event, discarding their
errors (the Go `for` loop over After stage handlers calls `handler(event)`
without inspecting the result). -/
def runAllHandlers {σ α : Type} :
    List (EventHandler σ α) → Event α → σ → σ
  | [], _, w => w
  | h :: rest, e, w => runAllHandlers rest e (h e w).1

/-- The `Event` literal built by `Transit` for the before-hook and the
Before stage: `Src` is the (uncommitted) current state, and a handler
observing `e.RSM.CurrentState` still sees that source state. -/
def bEvent {α : Type} (src dst : String) (args : List α) : Event α :=
  ⟨StageBefore, src, dst, args, src⟩

/-- The `Event` literal built by `Transit` for the InProgress stage; the
state is still uncommitted. -/
def iEvent {α : Type} (src dst : String) (args : List α) : Event α :=
  ⟨StageInProgress, src, dst, args, src⟩

/-- The `Event` literal built by `Transit` for the After stage and the
after-hook: built after the commit, so a handler observing
`e.RSM.CurrentState` sees the destination. -/
def aEvent {α : Type} (src dst : String) (args : List α) : Event α :=
  ⟨StageAfter, src, dst, args, dst⟩

/-- The handler list `Transit` obtains from the registry for one stage
(Go: `handlers, ok = r.transitions[transitionKey{...}]`); a missing entry
behaves as the empty list, exactly as a `nil` Go slice does under
`range`. -/
def stageHandlers {σ α : Type} (r : RSM σ α) (src dst : String)
    (stage : Nat) : List (EventHandler σ α) :=
  (lookupKey r.transitions ⟨src, dst, stage⟩).getD []

/-- The Go `Transit`.  The control flow is translated clause for clause:
legality gate, global before hook, Before-stage handlers, InProgress-stage
handlers, state commit, After-stage handlers (errors discarded), global
after hook (error discarded).  Every failure path returns the engine
unchanged. -/
def Transit {σ α : Type} (r : RSM σ α) (nextState : String) (args : List α)
    (w : σ) : RSM σ α × σ × Option String :=
  if CanTransitionTo r nextState then
    match runHook r.beforeTransition (bEvent r.CurrentState nextState args) w with
    | (w1, some err) => (r, w1, some err)
    | (w1, none) =>
      match runHandlers (stageHandlers r r.CurrentState nextState StageBefore)
          (bEvent r.CurrentState nextState args) w1 with
      | (w2, some err) => (r, w2, some err)
      | (w2, none) =>
        match runHandlers
            (stageHandlers r r.CurrentState nextState StageInProgress)
            (iEvent r.CurrentState nextState args) w2 with
        | (w3, some err) => (r, w3, some err)
        | (w3, none) =>
            ({ r with CurrentState := nextState },
             (runHook r.afterTransition (aEvent r.CurrentState nextState args)
               (runAllHandlers
                 (stageHandlers r r.CurrentState nextState StageAfter)
                 (aEvent r.CurrentState nextState args) w3)).1,
             none)
  else
    (r, w, some (cannotTransitionMsg r.CurrentState nextState))

/-- The Go `maxRetriesReached` error message; `%v` of a `nil` error prints
`<nil>`. -/
def maxRetriesReached {σ α : Type} (r : RSM σ α) (nextState : String)
    (err : Option String) : String :=
  "Error transitioning from " ++ r.CurrentState ++ " to " ++ nextState ++
    " with error: " ++ (match err with | some e => e | none => "<nil>")

/-- The loop body of the Go `TransitWithRetries`, with the loop state
(`err`, counter `i`) explicit and instrumented with the number of `Transit`
attempts made and the list of counters passed to the backoff function.
Each cycle first evaluates `time.After(r.RetryWaitTime(i))` (recorded in
`waits`), then the `select` either observes the quit channel (`cancelAt i`)
and returns the last recorded error, or proceeds: counter past
`MaxRetries` returns the exhaustion error, otherwise one `Transit` attempt
is made; success returns `nil`, failure is recorded and the loop repeats
with `i + 1`.  Fuel exhaustion yields `none`. -/
def transitWithRetriesAux {σ α : Type} (r : RSM σ α) (nextState : String)
    (args : List α) (cancelAt : Nat → Bool) :
    σ → Option String → Nat → Nat → List Nat → Nat →
    Option (RSM σ α × σ × Option String × Nat × List Nat)
  | _, _, _, _, _, 0 => none
  | w, err, i, attempts, waits, fuel + 1 =>
    if cancelAt i then some (r, w, err, attempts, waits ++ [i])
    else if i > r.MaxRetries then
      some (r, w, some (maxRetriesReached r nextState err), attempts,
        waits ++ [i])
    else
      match Transit r nextState args w with
      | (rr, ww, none) => some (rr, ww, none, attempts + 1, waits ++ [i])
      | (rr, ww, some e) =>
          transitWithRetriesAux rr nextState args cancelAt ww (some e)
            (i + 1) (attempts + 1) (waits ++ [i]) fuel

/-- The Go `TransitWithRetries`: `err` starts as `nil` and `i` as 1. -/
def TransitWithRetries {σ α : Type} (r : RSM σ α) (nextState : String)
    (args : List α) (w : σ) (cancelAt : Nat → Bool) (fuel : Nat) :
    Option (RSM σ α × σ × Option String × Nat × List Nat) :=
  transitWithRetriesAux r nextState args cancelAt w none 1 0 [] fuel

/-- Register a whole list of handlers under one key, one `AddHandler` call
per element, in list order. -/
def registerAll {σ α : Type} (r : RSM σ α) (startState endState : String)
    (stage : Nat) (hs : List (EventHandler σ α)) : RSM σ α :=
  hs.foldl (fun acc h => AddHandler acc startState endState stage h) r

/-- An instrumented handler over the world `σ = List Nat`: it appends its
own label `j` to the shared trace and succeeds.  Used to observe invocation
order. -/
def recordHandler {α : Type} (j : Nat) : EventHandler (List Nat) α :=
  fun _ tr => (tr ++ [j], none)

/-- An instrumented handler that fails with message `msg` without touching
the trace. -/
def failWith {α : Type} (msg : String) : EventHandler (List Nat) α :=
  fun _ tr => (tr, some msg)

/-- Histories of engine runs: `Reachable r0 w0 r w tr` says the pair
`(r, w)` is produced from `(r0, w0)` by a sequence of `Transit` calls whose
destinations and success flags are listed in `tr`. -/
inductive Reachable {σ α : Type} (r0 : RSM σ α) (w0 : σ) :
    RSM σ α → σ → List (String × Bool) → Prop where
  | refl : Reachable r0 w0 r0 w0 []
  | step (r : RSM σ α) (w : σ) (tr : List (String × Bool)) (dest : String)
      (args : List α) (r' : RSM σ α) (w' : σ) (res : Option String) :
      Reachable r0 w0 r w tr →
      Transit r dest args w = (r', w', res) →
      Reachable r0 w0 r' w' (tr ++ [(dest, res.isNone)])

/-- The destination of the last successful transition in a history. -/
def lastSuccess : List (String × Bool) → Option String
  | [] => none
  | (d, ok) :: rest =>
      match lastSuccess rest with
      | some x => some x
      | none => if ok then some d else none

/-- A one-transition machine: `start → end` registered through
`AddTransition` with a `nil` handler (so the `NilHandler` stands in). -/
def rOne : RSM (List Nat) String :=
  AddTransition (NewRSM "start" (fun _ => 1) 100) "start" "end" none

/-- `rOne` after its single legal transition committed. -/
def rOneDone : RSM (List Nat) String :=
  { rOne with CurrentState := "end" }

/-- A fully instrumented machine: global before/after hooks, two Before
handlers, two InProgress handlers and two After handlers, all recording
their labels. -/
def rFull : RSM (List Nat) String :=
  AfterTransitionHandler
    (BeforeTransitionHandler
      (AddHandler
        (AddHandler
          (AddTransition
            (AddTransition
              (AddHandler
                (AddHandler (NewRSM "start" (fun _ => 1) 100)
                  "start" "end" StageBefore (recordHandler 1))
                "start" "end" StageBefore (recordHandler 2))
              "start" "end" (some (recordHandler 3)))
            "start" "end" (some (recordHandler 4)))
          "start" "end" StageAfter (recordHandler 5))
        "start" "end" StageAfter (recordHandler 6))
      (recordHandler 100))
    (recordHandler 200)

/-- A machine whose Before stage has one recording handler followed by a
failing one. -/
def rBeforeFails : RSM (List Nat) String :=
  AddHandler
    (AddHandler
      (AddTransition (NewRSM "start" (fun _ => 1) 100) "start" "end"
        (some (recordHandler 3)))
      "start" "end" StageBefore (recordHandler 1))
    "start" "end" StageBefore (failWith "boom")

/-- A handler that records its label and then fails; used in the After
stage, where its failure must be swallowed. -/
def afterFailHandler {α : Type} : EventHandler (List Nat) α :=
  fun _ tr => (tr ++ [7], some "afterboom")

/-- A machine with a no-op InProgress handler and a failing After handler. -/
def rAfterFails : RSM (List Nat) String :=
  AddHandler
    (AddTransition (NewRSM "start" (fun _ => 1) 100) "start" "end" none)
    "start" "end" StageAfter afterFailHandler

/-- A machine with `MaxRetries = 1` whose only InProgress handler always
fails: the retry loop makes exactly one attempt before exhausting. -/
def rAlwaysFails : RSM (List Nat) String :=
  AddTransition (NewRSM "start" (fun _ => 1) 1) "start" "end"
    (some (fun _ tr => (tr ++ [99], some "failed")))

/-- A machine (`MaxRetries = 100`, as in the repository's test) whose
InProgress handler fails on the first two attempts and succeeds on the
third, counting attempts in the world. -/
def rThirdTime : RSM (List Nat) String :=
  AddTransition (NewRSM "start" (fun _ => 1) 100) "start" "end"
    (some (fun _ tr =>
      if tr.length < 2 then (tr ++ [0], some "failed") else (tr ++ [0], none)))

end Rsm

namespace Rsm

theorem lookupKey_setKey_self {σ α : Type}
    (m : List (transitionKey × List (EventHandler σ α))) (k : transitionKey)
    (v : List (EventHandler σ α)) :
    lookupKey (setKey m k v) k = some v := by
  induction m with
  | nil => simp [setKey, lookupKey]
  | cons p rest ih =>
    obtain ⟨k', v'⟩ := p
    by_cases h : k = k'
    · simp [setKey, lookupKey, h]
    · simp [setKey, lookupKey, h, ih]

theorem lookupKey_setKey_ne {σ α : Type}
    (m : List (transitionKey × List (EventHandler σ α)))
    (k k2 : transitionKey) (v : List (EventHandler σ α)) (hne : k2 ≠ k) :
    lookupKey (setKey m k v) k2 = lookupKey m k2 := by
  induction m with
  | nil => simp [setKey, lookupKey, hne]
  | cons p rest ih =>
    obtain ⟨k', v'⟩ := p
    by_cases h : k = k'
    · subst h; simp [setKey, lookupKey, hne]
    · simp [setKey, lookupKey, h, ih]

theorem lookupKey_mem {σ α : Type}
    (m : List (transitionKey × List (EventHandler σ α))) (k : transitionKey)
    (v : List (EventHandler σ α)) (h : lookupKey m k = some v) : (k, v) ∈ m := by
  induction m with
  | nil => simp [lookupKey] at h
  | cons p rest ih =>
    obtain ⟨k', v'⟩ := p
    by_cases hk : k = k'
    · subst hk
      simp [lookupKey] at h
      subst h
      exact List.mem_cons_self _ _
    · simp [lookupKey, hk] at h
      exact List.mem_cons_of_mem _ (ih h)

theorem AddHandler_lookup_self {σ α : Type} (r : RSM σ α) (s d : String)
    (st : Nat) (h : EventHandler σ α) :
    lookupKey (AddHandler r s d st h).transitions ⟨s, d, st⟩ =
      some ((lookupKey r.transitions ⟨s, d, st⟩).getD [] ++ [h]) := by
  unfold AddHandler
  cases hl : lookupKey r.transitions ⟨s, d, st⟩ with
  | some v => simp [hl, lookupKey_setKey_self]
  | none => simp [hl, lookupKey_setKey_self]

theorem AddHandler_lookup_ne {σ α : Type} (r : RSM σ α) (s d : String)
    (st : Nat) (h : EventHandler σ α) (k : transitionKey)
    (hne : k ≠ ⟨s, d, st⟩) :
    lookupKey (AddHandler r s d st h).transitions k =
      lookupKey r.transitions k := by
  unfold AddHandler
  cases hl : lookupKey r.transitions ⟨s, d, st⟩ with
  | some v => simp [hl, lookupKey_setKey_ne _ _ _ _ hne]
  | none => simp [hl, lookupKey_setKey_ne _ _ _ _ hne]

theorem AddHandler_fields {σ α : Type} (r : RSM σ α) (s d : String)
    (st : Nat) (h : EventHandler σ α) :
    (AddHandler r s d st h).CurrentState = r.CurrentState ∧
    (AddHandler r s d st h).beforeTransition = r.beforeTransition ∧
    (AddHandler r s d st h).afterTransition = r.afterTransition := by
  unfold AddHandler
  cases lookupKey r.transitions ⟨s, d, st⟩ <;> exact ⟨rfl, rfl, rfl⟩

theorem registerAll_fields {σ α : Type} (hs : List (EventHandler σ α)) :
    ∀ (r : RSM σ α) (s d : String) (st : Nat),
    (registerAll r s d st hs).CurrentState = r.CurrentState ∧
    (registerAll r s d st hs).beforeTransition = r.beforeTransition ∧
    (registerAll r s d st hs).afterTransition = r.afterTransition := by
  induction hs with
  | nil => intro r s d st; exact ⟨rfl, rfl, rfl⟩
  | cons h rest ih =>
    intro r s d st
    have hf := AddHandler_fields r s d st h
    have hr := ih (AddHandler r s d st h) s d st
    simp only [registerAll, List.foldl_cons] at hr ⊢
    exact ⟨hr.1.trans hf.1, hr.2.1.trans hf.2.1, hr.2.2.trans hf.2.2⟩

theorem registerAll_lookup_self {σ α : Type} (hs : List (EventHandler σ α)) :
    ∀ (r : RSM σ α) (s d : String) (st : Nat) (h : EventHandler σ α),
    lookupKey (registerAll r s d st (h :: hs)).transitions ⟨s, d, st⟩ =
      some ((lookupKey r.transitions ⟨s, d, st⟩).getD [] ++ h :: hs) := by
  induction hs with
  | nil =>
    intro r s d st h
    simp only [registerAll, List.foldl_cons, List.foldl_nil]
    exact AddHandler_lookup_self r s d st h
  | cons h2 rest ih =>
    intro r s d st h
    have step := ih (AddHandler r s d st h) s d st h2
    simp only [registerAll, List.foldl_cons] at step ⊢
    rw [step, AddHandler_lookup_self r s d st h]
    simp

theorem registerAll_lookup_ne {σ α : Type} (hs : List (EventHandler σ α)) :
    ∀ (r : RSM σ α) (s d : String) (st : Nat) (k : transitionKey),
    k ≠ ⟨s, d, st⟩ →
    lookupKey (registerAll r s d st hs).transitions k =
      lookupKey r.transitions k := by
  induction hs with
  | nil => intro r s d st k _; rfl
  | cons h rest ih =>
    intro r s d st k hne
    have step := ih (AddHandler r s d st h) s d st k hne
    simp only [registerAll, List.foldl_cons] at step ⊢
    rw [step, AddHandler_lookup_ne r s d st h k hne]

theorem runHandlers_append_none {σ α : Type} (hs2 : List (EventHandler σ α))
    (e : Event α) (hs1 : List (EventHandler σ α)) :
    ∀ (w w1 : σ), runHandlers hs1 e w = (w1, none) →
    runHandlers (hs1 ++ hs2) e w = runHandlers hs2 e w1 := by
  induction hs1 with
  | nil =>
    intro w w1 h
    simp [runHandlers] at h
    subst h
    rfl
  | cons hh rest ih =>
    intro w w1 h
    simp only [runHandlers] at h
    rcases hr : hh e w with ⟨w', res⟩
    rw [hr] at h
    cases res with
    | some err => simp at h
    | none =>
      simp only at h
      simp only [List.cons_append, runHandlers, hr]
      exact ih w' w1 h

theorem runHandlers_append_some {σ α : Type} (hs2 : List (EventHandler σ α))
    (e : Event α) (hs1 : List (EventHandler σ α)) :
    ∀ (w w1 : σ) (err : String), runHandlers hs1 e w = (w1, some err) →
    runHandlers (hs1 ++ hs2) e w = (w1, some err) := by
  induction hs1 with
  | nil => intro w w1 err h; simp [runHandlers] at h
  | cons hh rest ih =>
    intro w w1 err h
    simp only [runHandlers] at h
    rcases hr : hh e w with ⟨w', res⟩
    rw [hr] at h
    cases res with
    | some e2 =>
      simp only at h
      simp only [List.cons_append, runHandlers, hr]
      exact h
    | none =>
      simp only at h
      simp only [List.cons_append, runHandlers, hr]
      exact ih w' w1 err h

theorem runHandlers_record {α : Type} (e : Event α) (L : List Nat) :
    ∀ tr : List Nat,
    runHandlers (L.map recordHandler) e tr = (tr ++ L, none) := by
  induction L with
  | nil => intro tr; simp [runHandlers]
  | cons j rest ih =>
    intro tr
    simp only [List.map_cons, runHandlers, recordHandler]
    rw [ih (tr ++ [j])]
    simp

end Rsm

namespace Rsm

theorem transit_illegal_eq {σ α : Type} (r : RSM σ α) (d : String)
    (a : List α) (w : σ) (h : CanTransitionTo r d = false) :
    Transit r d a w = (r, w, some (cannotTransitionMsg r.CurrentState d)) := by
  simp [Transit, h]

theorem transit_hookFail_eq {σ α : Type} (r : RSM σ α) (d : String)
    (a : List α) (w w1 : σ) (e : String)
    (hcan : CanTransitionTo r d = true)
    (hh : runHook r.beforeTransition (bEvent r.CurrentState d a) w = (w1, some e)) :
    Transit r d a w = (r, w1, some e) := by
  simp [Transit, hcan, hh]

theorem transit_beforeFail_eq {σ α : Type} (r : RSM σ α) (d : String)
    (a : List α) (w w1 w2 : σ) (e : String)
    (hcan : CanTransitionTo r d = true)
    (hh : runHook r.beforeTransition (bEvent r.CurrentState d a) w = (w1, none))
    (hb : runHandlers (stageHandlers r r.CurrentState d StageBefore)
      (bEvent r.CurrentState d a) w1 = (w2, some e)) :
    Transit r d a w = (r, w2, some e) := by
  simp [Transit, hcan, hh, hb]

theorem transit_ipFail_eq {σ α : Type} (r : RSM σ α) (d : String)
    (a : List α) (w w1 w2 w3 : σ) (e : String)
    (hcan : CanTransitionTo r d = true)
    (hh : runHook r.beforeTransition (bEvent r.CurrentState d a) w = (w1, none))
    (hb : runHandlers (stageHandlers r r.CurrentState d StageBefore)
      (bEvent r.CurrentState d a) w1 = (w2, none))
    (hip : runHandlers (stageHandlers r r.CurrentState d StageInProgress)
      (iEvent r.CurrentState d a) w2 = (w3, some e)) :
    Transit r d a w = (r, w3, some e) := by
  simp [Transit, hcan, hh, hb, hip]

theorem transit_success_eq {σ α : Type} (r : RSM σ α) (d : String)
    (a : List α) (w w1 w2 w3 : σ)
    (hcan : CanTransitionTo r d = true)
    (hh : runHook r.beforeTransition (bEvent r.CurrentState d a) w = (w1, none))
    (hb : runHandlers (stageHandlers r r.CurrentState d StageBefore)
      (bEvent r.CurrentState d a) w1 = (w2, none))
    (hip : runHandlers (stageHandlers r r.CurrentState d StageInProgress)
      (iEvent r.CurrentState d a) w2 = (w3, none)) :
    Transit r d a w =
      ({ r with CurrentState := d },
       (runHook r.afterTransition (aEvent r.CurrentState d a)
         (runAllHandlers (stageHandlers r r.CurrentState d StageAfter)
           (aEvent r.CurrentState d a) w3)).1,
       none) := by
  simp [Transit, hcan, hh, hb, hip]

theorem transit_some_inv {σ α : Type} (r r2 : RSM σ α) (d : String)
    (a : List α) (w w2 : σ) (e : String)
    (h : Transit r d a w = (r2, w2, some e)) : r2 = r := by
  by_cases hcan : CanTransitionTo r d
  · rcases hh : runHook r.beforeTransition (bEvent r.CurrentState d a) w with ⟨u1, res1⟩
    cases res1 with
    | some e1 =>
      rw [transit_hookFail_eq r d a w u1 e1 hcan hh] at h
      exact (Prod.mk.injEq _ _ _ _ ▸ h).1.symm
    | none =>
      rcases hb : runHandlers (stageHandlers r r.CurrentState d StageBefore)
          (bEvent r.CurrentState d a) u1 with ⟨u2, res2⟩
      cases res2 with
      | some e2 =>
        rw [transit_beforeFail_eq r d a w u1 u2 e2 hcan hh hb] at h
        exact (Prod.mk.injEq _ _ _ _ ▸ h).1.symm
      | none =>
        rcases hip : runHandlers (stageHandlers r r.CurrentState d StageInProgress)
            (iEvent r.CurrentState d a) u2 with ⟨u3, res3⟩
        cases res3 with
        | some e3 =>
          rw [transit_ipFail_eq r d a w u1 u2 u3 e3 hcan hh hb hip] at h
          exact (Prod.mk.injEq _ _ _ _ ▸ h).1.symm
        | none =>
          rw [transit_success_eq r d a w u1 u2 u3 hcan hh hb hip] at h
          simp at h
  · rw [transit_illegal_eq r d a w (Bool.not_eq_true _ ▸ hcan)] at h
    exact (Prod.mk.injEq _ _ _ _ ▸ h).1.symm

theorem transit_none_inv {σ α : Type} (r r2 : RSM σ α) (d : String)
    (a : List α) (w w2 : σ)
    (h : Transit r d a w = (r2, w2, none)) :
    CanTransitionTo r d = true ∧
    ∃ w1 u2 u3,
      runHook r.beforeTransition (bEvent r.CurrentState d a) w = (w1, none) ∧
      runHandlers (stageHandlers r r.CurrentState d StageBefore)
        (bEvent r.CurrentState d a) w1 = (u2, none) ∧
      runHandlers (stageHandlers r r.CurrentState d StageInProgress)
        (iEvent r.CurrentState d a) u2 = (u3, none) ∧
      r2 = { r with CurrentState := d } ∧
      w2 = (runHook r.afterTransition (aEvent r.CurrentState d a)
        (runAllHandlers (stageHandlers r r.CurrentState d StageAfter)
          (aEvent r.CurrentState d a) u3)).1 := by
  by_cases hcan : CanTransitionTo r d
  · rcases hh : runHook r.beforeTransition (bEvent r.CurrentState d a) w with ⟨u1, res1⟩
    cases res1 with
    | some e1 =>
      rw [transit_hookFail_eq r d a w u1 e1 hcan hh] at h
      simp at h
    | none =>
      rcases hb : runHandlers (stageHandlers r r.CurrentState d StageBefore)
          (bEvent r.CurrentState d a) u1 with ⟨u2, res2⟩
      cases res2 with
      | some e2 =>
        rw [transit_beforeFail_eq r d a w u1 u2 e2 hcan hh hb] at h
        simp at h
      | none =>
        rcases hip : runHandlers (stageHandlers r r.CurrentState d StageInProgress)
            (iEvent r.CurrentState d a) u2 with ⟨u3, res3⟩
        cases res3 with
        | some e3 =>
          rw [transit_ipFail_eq r d a w u1 u2 u3 e3 hcan hh hb hip] at h
          simp at h
        | none =>
          rw [transit_success_eq r d a w u1 u2 u3 hcan hh hb hip] at h
          simp only [Prod.mk.injEq] at h
          exact ⟨hcan, u1, u2, u3, by simp [hh], by simp [hb], by simp [hip], h.1.symm, h.2.1.symm⟩
  · rw [transit_illegal_eq r d a w (Bool.not_eq_true _ ▸ hcan)] at h
    simp at h

end Rsm

namespace Rsm

theorem lastSuccess_append_true (tr : List (String × Bool)) (d : String) :
    lastSuccess (tr ++ [(d, true)]) = some d := by
  induction tr with
  | nil => rfl
  | cons p rest ih =>
    obtain ⟨d', ok⟩ := p
    simp [lastSuccess, ih]

theorem lastSuccess_append_false (tr : List (String × Bool)) (d : String) :
    lastSuccess (tr ++ [(d, false)]) = lastSuccess tr := by
  induction tr with
  | nil => rfl
  | cons p rest ih =>
    obtain ⟨d', ok⟩ := p
    simp [lastSuccess, ih]

theorem transitAux_exhausts {σ α : Type} (r : RSM σ α) (d : String)
    (a : List α) (cancelAt : Nat → Bool)
    (hfail : ∀ u : σ, ∃ e uu, Transit r d a u = (r, uu, some e))
    (hnc : ∀ j, cancelAt j = false) :
    ∀ (n : Nat) (w : σ) (err : Option String) (i attempts : Nat)
      (waits : List Nat),
    i + n = r.MaxRetries + 1 →
    ∃ wf ef,
      transitWithRetriesAux r d a cancelAt w err i attempts waits (n + 1) =
        some (r, wf, some (maxRetriesReached r d ef), attempts + n,
          waits ++ List.range' i (n + 1)) ∧
      (n = 0 → ef = err ∧ wf = w) ∧
      (0 < n → ∃ u e, Transit r d a u = (r, wf, some e) ∧ ef = some e) := by
  intro n
  induction n with
  | zero =>
    intro w err i attempts waits hi
    refine ⟨w, err, ?_, fun _ => ⟨rfl, rfl⟩, fun h => absurd h (lt_irrefl 0)⟩
    have hgt : i > r.MaxRetries := by omega
    simp [transitWithRetriesAux, hnc i, hgt]
  | succ n ih =>
    intro w err i attempts waits hi
    have hle : ¬ (i > r.MaxRetries) := by omega
    obtain ⟨e, uu, hT⟩ := hfail w
    obtain ⟨wf, ef, hrec, h0, hpos⟩ :=
      ih uu (some e) (i + 1) (attempts + 1) (waits ++ [i]) (by omega)
    refine ⟨wf, ef, ?_, fun h => absurd h (Nat.succ_ne_zero n), fun _ => ?_⟩
    · have hstep : transitWithRetriesAux r d a cancelAt w err i attempts waits
          (n + 1 + 1) =
          transitWithRetriesAux r d a cancelAt uu (some e) (i + 1)
            (attempts + 1) (waits ++ [i]) (n + 1) := by
        simp [transitWithRetriesAux, hnc i, hle, hT]
      rw [hstep, hrec]
      have hn : attempts + 1 + n = attempts + (n + 1) := by omega
      have hw : (waits ++ [i]) ++ List.range' (i + 1) (n + 1) =
          waits ++ List.range' i (n + 1 + 1) := by
        simp [List.range'_succ]
      rw [hn, hw]
    · rcases Nat.eq_zero_or_pos n with hn0 | hnpos
      · subst hn0
        obtain ⟨hef, hwf⟩ := h0 rfl
        exact ⟨w, e, by rw [hT, hwf], hef⟩
      · exact hpos hnpos

end Rsm

namespace Rsm

/-- C1: a transition is legal iff an InProgress-stage registry entry exists
for (current state, destination); with no such entry `CanTransitionTo` is
false and `Transit` fails with the illegal-transition error leaving the
engine and the world untouched; registries whose every entry is at a
non-InProgress stage (Before/After only) never make a transition legal. -/
theorem legality_gate_inProgress_only {σ α : Type} (r : RSM σ α)
    (d : String) (a : List α) (w : σ) :
    (CanTransitionTo r d = true ↔
      (lookupKey r.transitions
        ⟨r.CurrentState, d, StageInProgress⟩).isSome = true)
    ∧ (lookupKey r.transitions ⟨r.CurrentState, d, StageInProgress⟩ = none →
        CanTransitionTo r d = false ∧
        Transit r d a w = (r, w, some (cannotTransitionMsg r.CurrentState d)))
    ∧ ((∀ (k : transitionKey) (hs : List (EventHandler σ α)),
          (k, hs) ∈ r.transitions → k.stage ≠ StageInProgress) →
        CanTransitionTo r d = false ∧
        Transit r d a w = (r, w, some (cannotTransitionMsg r.CurrentState d))) := by
  refine ⟨Iff.rfl, ?_, ?_⟩
  · intro h
    have hcan : CanTransitionTo r d = false := by simp [CanTransitionTo, h]
    exact ⟨hcan, transit_illegal_eq r d a w hcan⟩
  · intro hall
    have hnone :
        lookupKey r.transitions ⟨r.CurrentState, d, StageInProgress⟩ = none := by
      cases hl : lookupKey r.transitions ⟨r.CurrentState, d, StageInProgress⟩ with
      | none => rfl
      | some v => exact absurd rfl (hall _ v (lookupKey_mem _ _ _ hl))
    have hcan : CanTransitionTo r d = false := by simp [CanTransitionTo, hnone]
    exact ⟨hcan, transit_illegal_eq r d a w hcan⟩

/-- C3: every successful `Transit` is exactly the staged composition
before-all hook, then Before-stage handlers, then InProgress-stage
handlers, then the state commit (the After events carry the committed
destination as the observable current state), then After-stage handlers,
then the after-all hook; and within a stage the handler list runs in
order, earlier handlers first.  The optional finalize hook of the spec
does not exist in this code, so its slot in the order is vacuous. -/
theorem transit_success_stage_order {σ α : Type} (r : RSM σ α) (d : String)
    (a : List α) (w : σ) (hok : (Transit r d a w).2.2 = none) :
    (∃ w1 w2 w3,
      runHook r.beforeTransition (bEvent r.CurrentState d a) w = (w1, none) ∧
      runHandlers (stageHandlers r r.CurrentState d StageBefore)
        (bEvent r.CurrentState d a) w1 = (w2, none) ∧
      runHandlers (stageHandlers r r.CurrentState d StageInProgress)
        (iEvent r.CurrentState d a) w2 = (w3, none) ∧
      Transit r d a w =
        ({ r with CurrentState := d },
         (runHook r.afterTransition (aEvent r.CurrentState d a)
           (runAllHandlers (stageHandlers r r.CurrentState d StageAfter)
             (aEvent r.CurrentState d a) w3)).1,
         none))
    ∧ (∀ (hs1 hs2 : List (EventHandler σ α)) (e : Event α) (u u1 : σ),
        runHandlers hs1 e u = (u1, none) →
        runHandlers (hs1 ++ hs2) e u = runHandlers hs2 e u1) := by
  rcases hres : Transit r d a w with ⟨r2, w2, res⟩
  rw [hres] at hok
  simp only at hok
  subst hok
  obtain ⟨hcan, w1, u2, u3, hh, hb, hip, hr2, hw2⟩ :=
    transit_none_inv r r2 d a w w2 hres
  refine ⟨⟨w1, u2, u3, hh, hb, hip, ?_⟩,
    fun hs1 hs2 e u u1 h1 => runHandlers_append_none hs2 e hs1 u u1 h1⟩
  rw [hr2, hw2]

/-- C4: when the global before hook, a Before-stage handler or an
InProgress-stage handler fails, `Transit` returns the engine unchanged
together with that handler's error verbatim, the world being exactly the
one produced up to and including the failing handler (so no later stage
ran); and within a stage, a failure after a successful run of the earlier
handlers produces a result independent of the handlers registered after
the failing one. -/
theorem early_failure_aborts_unchanged {σ α : Type} (r : RSM σ α)
    (d : String) (a : List α) (hcan : CanTransitionTo r d = true) :
    (∀ (w w1 : σ) (e : String),
      runHook r.beforeTransition (bEvent r.CurrentState d a) w = (w1, some e) →
      Transit r d a w = (r, w1, some e))
    ∧ (∀ (w w1 w2 : σ) (e : String),
      runHook r.beforeTransition (bEvent r.CurrentState d a) w = (w1, none) →
      runHandlers (stageHandlers r r.CurrentState d StageBefore)
        (bEvent r.CurrentState d a) w1 = (w2, some e) →
      Transit r d a w = (r, w2, some e))
    ∧ (∀ (w w1 w2 w3 : σ) (e : String),
      runHook r.beforeTransition (bEvent r.CurrentState d a) w = (w1, none) →
      runHandlers (stageHandlers r r.CurrentState d StageBefore)
        (bEvent r.CurrentState d a) w1 = (w2, none) →
      runHandlers (stageHandlers r r.CurrentState d StageInProgress)
        (iEvent r.CurrentState d a) w2 = (w3, some e) →
      Transit r d a w = (r, w3, some e))
    ∧ (∀ (hs1 hs2 : List (EventHandler σ α)) (hf : EventHandler σ α)
        (e : Event α) (u u1 u2 : σ) (err : String),
        runHandlers hs1 e u = (u1, none) → hf e u1 = (u2, some err) →
        runHandlers (hs1 ++ hf :: hs2) e u = (u2, some err)) := by
  refine ⟨fun w w1 e hh => transit_hookFail_eq r d a w w1 e hcan hh,
    fun w w1 w2 e hh hb => transit_beforeFail_eq r d a w w1 w2 e hcan hh hb,
    fun w w1 w2 w3 e hh hb hip =>
      transit_ipFail_eq r d a w w1 w2 w3 e hcan hh hb hip,
    ?_⟩
  intro hs1 hs2 hf e u u1 u2 err hok hfl
  rw [runHandlers_append_none (hf :: hs2) e hs1 u u1 hok]
  simp [runHandlers, hfl]

/-- C5: once the legality gate, the before hook and the Before and
InProgress stages have succeeded, `Transit` commits the destination and
returns no error, whatever the After-stage handlers and the after hook do:
their failures are swallowed and the committed state is not reverted,
while the world still passes through all of them (they do run). -/
theorem after_stage_failures_swallowed {σ α : Type} (r : RSM σ α)
    (d : String) (a : List α) (w w1 w2 w3 : σ)
    (hcan : CanTransitionTo r d = true)
    (hh : runHook r.beforeTransition (bEvent r.CurrentState d a) w = (w1, none))
    (hb : runHandlers (stageHandlers r r.CurrentState d StageBefore)
      (bEvent r.CurrentState d a) w1 = (w2, none))
    (hip : runHandlers (stageHandlers r r.CurrentState d StageInProgress)
      (iEvent r.CurrentState d a) w2 = (w3, none)) :
    (Transit r d a w).2.2 = none
    ∧ (Transit r d a w).1.CurrentState = d
    ∧ Transit r d a w =
        ({ r with CurrentState := d },
         (runHook r.afterTransition (aEvent r.CurrentState d a)
           (runAllHandlers (stageHandlers r r.CurrentState d StageAfter)
             (aEvent r.CurrentState d a) w3)).1,
         none) := by
  have he := transit_success_eq r d a w w1 w2 w3 hcan hh hb hip
  exact ⟨by rw [he], by rw [he], he⟩

/-- C8: if the quit channel fires during the wait of the cycle with
attempt counter `i`, the retry loop returns at once with the engine and
world as they were, the last recorded failure (or none when no attempt has
failed yet) and no further `Transit` attempt (the attempt count is
untouched); started fresh and cancelled on its first wait it returns no
error and zero attempts. -/
theorem cancellation_returns_last_error {σ α : Type} (r : RSM σ α)
    (d : String) (a : List α) (w : σ) (cancelAt : Nat → Bool)
    (err : Option String) (i attempts : Nat) (waits : List Nat) (fuel : Nat)
    (hc : cancelAt i = true) :
    transitWithRetriesAux r d a cancelAt w err i attempts waits (fuel + 1) =
      some (r, w, err, attempts, waits ++ [i])
    ∧ (cancelAt 1 = true →
        TransitWithRetries r d a w cancelAt (fuel + 1) =
          some (r, w, none, 0, [1])) := by
  constructor
  · simp [transitWithRetriesAux, hc]
  · intro hc1
    simp [TransitWithRetries, transitWithRetriesAux, hc1]

/-- C9: along any history of `Transit` calls the current state is the
destination of the most recent successful call, or the initial state when
none succeeded; a failing call leaves the whole engine unchanged and a
successful one changes exactly the `CurrentState` field to the
destination (the single commit point). -/
theorem currentState_reflects_last_success {σ α : Type} (r0 : RSM σ α)
    (w0 : σ) (r : RSM σ α) (w : σ) (tr : List (String × Bool))
    (hreach : Reachable r0 w0 r w tr) :
    r.CurrentState = (lastSuccess tr).getD r0.CurrentState
    ∧ (∀ (rr rr2 : RSM σ α) (d : String) (a : List α) (u u2 : σ) (e : String),
        Transit rr d a u = (rr2, u2, some e) → rr2 = rr)
    ∧ (∀ (rr rr2 : RSM σ α) (d : String) (a : List α) (u u2 : σ),
        Transit rr d a u = (rr2, u2, none) →
        rr2 = { rr with CurrentState := d }) := by
  refine ⟨?_,
    fun rr rr2 d a u u2 e h => transit_some_inv rr rr2 d a u u2 e h,
    fun rr rr2 d a u u2 h =>
      ((transit_none_inv rr rr2 d a u u2 h).2.choose_spec.choose_spec.choose_spec).2.2.2.1⟩
  induction hreach with
  | refl => simp [lastSuccess]
  | step r w tr dest args r2 w2 res hre heq ih =>
    cases res with
    | some e =>
      rw [transit_some_inv r r2 dest args w w2 e heq]
      simpa [lastSuccess_append_false] using ih
    | none =>
      obtain ⟨_, w1, u2, u3, _, _, _, hr2, _⟩ :=
        transit_none_inv r r2 dest args w w2 heq
      rw [hr2]
      simp [lastSuccess_append_true]

/-- C10: `Transit` never changes the transition registry, the hook slots,
the backoff function or the retry budget; the engine it returns is the
input engine itself on every failure, and the input engine with only
`CurrentState` set to the destination on success. -/
theorem transit_frame_only_currentState {σ α : Type} (r : RSM σ α)
    (d : String) (a : List α) (w : σ) :
    (Transit r d a w).1.transitions = r.transitions
    ∧ (Transit r d a w).1.beforeTransition = r.beforeTransition
    ∧ (Transit r d a w).1.afterTransition = r.afterTransition
    ∧ (Transit r d a w).1.RetryWaitTime = r.RetryWaitTime
    ∧ (Transit r d a w).1.MaxRetries = r.MaxRetries
    ∧ ((Transit r d a w).2.2 ≠ none → (Transit r d a w).1 = r)
    ∧ ((Transit r d a w).2.2 = none →
        (Transit r d a w).1 = { r with CurrentState := d }) := by
  rcases hres : Transit r d a w with ⟨r2, w2, res⟩
  cases res with
  | some e =>
    have h2 := transit_some_inv r r2 d a w w2 e hres
    subst h2
    exact ⟨rfl, rfl, rfl, rfl, rfl, fun _ => rfl, fun h => absurd h (by simp)⟩
  | none =>
    obtain ⟨_, w1, u2, u3, _, _, _, hr2, _⟩ := transit_none_inv r r2 d a w w2 hres
    subst hr2
    exact ⟨rfl, rfl, rfl, rfl, rfl, fun h => absurd rfl h, fun _ => rfl⟩

end Rsm

namespace Rsm

theorem registerNew_lookup_ip {σ α : Type} (s d : String) (f : Nat → Nat)
    (m : Nat) (h : EventHandler σ α) (hs : List (EventHandler σ α)) :
    stageHandlers (registerAll (NewRSM s f m) s d StageInProgress (h :: hs))
      s d StageInProgress = h :: hs := by
  unfold stageHandlers
  rw [registerAll_lookup_self hs (NewRSM s f m) s d StageInProgress h]
  rfl

theorem registerNew_lookup_other {σ α : Type} (s d : String) (f : Nat → Nat)
    (m : Nat) (hs : List (EventHandler σ α)) (st : Nat)
    (hst : st ≠ StageInProgress) :
    stageHandlers (registerAll (NewRSM s f m) s d StageInProgress hs)
      s d st = [] := by
  unfold stageHandlers
  rw [registerAll_lookup_ne hs (NewRSM s f m) s d StageInProgress ⟨s, d, st⟩
    (by simp [hst])]
  rfl

theorem registerNew_can {σ α : Type} (s d : String) (f : Nat → Nat) (m : Nat)
    (h : EventHandler σ α) (hs : List (EventHandler σ α)) :
    CanTransitionTo (registerAll (NewRSM s f m) s d StageInProgress (h :: hs))
      d = true := by
  unfold CanTransitionTo
  rw [(registerAll_fields (h :: hs) (NewRSM s f m) s d StageInProgress).1]
  show (lookupKey (registerAll (NewRSM s f m) s d StageInProgress
    (h :: hs)).transitions ⟨s, d, StageInProgress⟩).isSome = true
  rw [registerAll_lookup_self hs (NewRSM s f m) s d StageInProgress h]
  rfl

theorem transit_freshIP {σ α : Type} (s d : String) (f : Nat → Nat) (m : Nat)
    (h : EventHandler σ α) (hs : List (EventHandler σ α)) (a : List α)
    (w w3 : σ) (res : Option String)
    (hrun : runHandlers (h :: hs) (iEvent s d a) w = (w3, res)) :
    Transit (registerAll (NewRSM s f m) s d StageInProgress (h :: hs)) d a w =
      match res with
      | none =>
          ({ registerAll (NewRSM s f m) s d StageInProgress (h :: hs) with
              CurrentState := d }, w3, none)
      | some e =>
          (registerAll (NewRSM s f m) s d StageInProgress (h :: hs), w3,
            some e) := by
  have hflds := registerAll_fields (h :: hs) (NewRSM s f m) s d StageInProgress
  have hcs : (registerAll (NewRSM s f m) s d StageInProgress
      (h :: hs)).CurrentState = s := hflds.1.trans rfl
  have hbt : (registerAll (NewRSM s f m) s d StageInProgress
      (h :: hs)).beforeTransition = none := hflds.2.1.trans rfl
  have hat : (registerAll (NewRSM s f m) s d StageInProgress
      (h :: hs)).afterTransition = none := hflds.2.2.trans rfl
  have hcan := registerNew_can s d f m h hs
  have hh : runHook (registerAll (NewRSM s f m) s d StageInProgress
      (h :: hs)).beforeTransition
      (bEvent (registerAll (NewRSM s f m) s d StageInProgress
        (h :: hs)).CurrentState d a) w = (w, none) := by
    rw [hbt]
    rfl
  have hsb := registerNew_lookup_other s d f m (h :: hs) StageBefore (by decide)
  have hb : runHandlers (stageHandlers
      (registerAll (NewRSM s f m) s d StageInProgress (h :: hs))
      (registerAll (NewRSM s f m) s d StageInProgress (h :: hs)).CurrentState
      d StageBefore)
      (bEvent (registerAll (NewRSM s f m) s d StageInProgress
        (h :: hs)).CurrentState d a) w = (w, none) := by
    rw [hcs, hsb]
    rfl
  have hip : runHandlers (stageHandlers
      (registerAll (NewRSM s f m) s d StageInProgress (h :: hs))
      (registerAll (NewRSM s f m) s d StageInProgress (h :: hs)).CurrentState
      d StageInProgress)
      (iEvent (registerAll (NewRSM s f m) s d StageInProgress
        (h :: hs)).CurrentState d a) w = (w3, res) := by
    rw [hcs, registerNew_lookup_ip s d f m h hs]
    exact hrun
  have hsa := registerNew_lookup_other s d f m (h :: hs) StageAfter (by decide)
  cases res with
  | none =>
    rw [transit_success_eq (registerAll (NewRSM s f m) s d StageInProgress
      (h :: hs)) d a w w w w3 hcan hh hb hip]
    have hsa2 : stageHandlers
        (registerAll (NewRSM s f m) s d StageInProgress (h :: hs))
        (registerAll (NewRSM s f m) s d StageInProgress (h :: hs)).CurrentState
        d StageAfter = [] := by
      rw [hcs]
      exact hsa
    simp [hat, hsa2, runHook, runAllHandlers]
  | some e =>
    exact transit_ipFail_eq (registerAll (NewRSM s f m) s d StageInProgress
      (h :: hs)) d a w w w w3 e hcan hh hb hip

/-- C6: registering handlers appends them under their key in registration
order (no deduplication, other keys untouched); dispatching a legal
transition through a machine whose InProgress stage holds the recorded
handler list invokes all of them in that order when none fails, and when
the handler after the recorded block fails, exactly the earlier handlers
have run, the result not depending on the handlers registered after the
failing one, with the error returned and the machine unchanged. -/
theorem handlers_registration_order_and_cutoff {α : Type}
    (r : RSM (List Nat) α) (s d : String) (st : Nat)
    (h : EventHandler (List Nat) α)
    (hs hs2 : List (EventHandler (List Nat) α)) (j : Nat) (L : List Nat)
    (msg : String) (f : Nat → Nat) (m : Nat) (a : List α) (tr : List Nat) :
    (lookupKey (registerAll r s d st (h :: hs)).transitions ⟨s, d, st⟩ =
      some ((lookupKey r.transitions ⟨s, d, st⟩).getD [] ++ h :: hs))
    ∧ (∀ k : transitionKey, k ≠ ⟨s, d, st⟩ →
        lookupKey (registerAll r s d st (h :: hs)).transitions k =
          lookupKey r.transitions k)
    ∧ Transit (registerAll (NewRSM s f m) s d StageInProgress
          (recordHandler j :: L.map recordHandler)) d a tr =
        ({ registerAll (NewRSM s f m) s d StageInProgress
            (recordHandler j :: L.map recordHandler) with CurrentState := d },
         tr ++ j :: L, none)
    ∧ Transit (registerAll (NewRSM s f m) s d StageInProgress
          (recordHandler j :: (L.map recordHandler ++ failWith msg :: hs2)))
          d a tr =
        (registerAll (NewRSM s f m) s d StageInProgress
          (recordHandler j :: (L.map recordHandler ++ failWith msg :: hs2)),
         tr ++ j :: L, some msg) := by
  refine ⟨registerAll_lookup_self hs r s d st h,
    fun k hk => registerAll_lookup_ne (h :: hs) r s d st k hk, ?_, ?_⟩
  · have hr3 : runHandlers (recordHandler j :: L.map recordHandler)
        (iEvent s d a) tr = (tr ++ j :: L, none) := by
      simpa using runHandlers_record (iEvent s d a) (j :: L) tr
    exact transit_freshIP s d f m (recordHandler j) (L.map recordHandler) a tr
      (tr ++ j :: L) none hr3
  · have hrun4 : runHandlers (recordHandler j ::
        (L.map recordHandler ++ failWith msg :: hs2)) (iEvent s d a) tr =
        (tr ++ j :: L, some msg) := by
      have hcons : runHandlers ((j :: L).map recordHandler ++
          failWith msg :: hs2) (iEvent s d a) tr = (tr ++ j :: L, some msg) := by
        rw [runHandlers_append_none (failWith msg :: hs2) (iEvent s d a)
          ((j :: L).map recordHandler) tr (tr ++ j :: L)
          (runHandlers_record (iEvent s d a) (j :: L) tr)]
        simp [runHandlers, failWith]
      simpa using hcons
    exact transit_freshIP s d f m (recordHandler j)
      (L.map recordHandler ++ failWith msg :: hs2) a tr (tr ++ j :: L)
      (some msg) hrun4

/-- C2 (amended): with a destination whose dispatch fails on every
attempt and no cancellation, the retry loop returns the max-retries error
— naming the unchanged source state and the destination and wrapping the
failure of the last attempt (no failure when `MaxRetries = 0`) — after
exactly `MaxRetries` invocations of `Transit`, not `MaxRetries + 1`; the
backoff function is consulted with the counters 1 .. `MaxRetries + 1` and
the engine is returned unchanged. -/
theorem retries_exhausted_after_maxRetries_attempts {σ α : Type}
    (r : RSM σ α) (d : String) (a : List α) (w : σ) (cancelAt : Nat → Bool)
    (hfail : ∀ u : σ, ∃ e uu, Transit r d a u = (r, uu, some e))
    (hnc : ∀ j, cancelAt j = false) :
    ∃ wf ef,
      TransitWithRetries r d a w cancelAt (r.MaxRetries + 1) =
        some (r, wf, some (maxRetriesReached r d ef), r.MaxRetries,
          List.range' 1 (r.MaxRetries + 1)) ∧
      (r.MaxRetries = 0 → ef = none) ∧
      (0 < r.MaxRetries →
        ∃ u e, Transit r d a u = (r, wf, some e) ∧ ef = some e) := by
  obtain ⟨wf, ef, heq, h0, hpos⟩ :=
    transitAux_exhausts r d a cancelAt hfail hnc r.MaxRetries w none 1 0 []
      (by omega)
  refine ⟨wf, ef, ?_, fun hz => (h0 hz).1, hpos⟩
  simpa [TransitWithRetries] using heq

/-- C7: when the first two attempts fail and the third succeeds (with
enough retry budget, no cancellation and enough fuel), the retry loop
returns success after exactly 3 `Transit` invocations, the backoff
function having been consulted with the attempt counters 1, 2, 3, and the
current state committed to the destination. -/
theorem retry_succeeds_on_third_attempt {σ α : Type} (r : RSM σ α)
    (d : String) (a : List α) (w w1 w2 : σ) (e1 e2 : String)
    (cancelAt : Nat → Bool) (fuel : Nat)
    (h1 : Transit r d a w = (r, w1, some e1))
    (h2 : Transit r d a w1 = (r, w2, some e2))
    (h3 : (Transit r d a w2).2.2 = none)
    (hm : 3 ≤ r.MaxRetries) (hnc : ∀ j, cancelAt j = false)
    (hf : 3 ≤ fuel) :
    TransitWithRetries r d a w cancelAt fuel =
      some ((Transit r d a w2).1, (Transit r d a w2).2.1, none, 3, [1, 2, 3])
    ∧ ((Transit r d a w2).1).CurrentState = d := by
  obtain ⟨k, rfl⟩ : ∃ k, fuel = k + 3 := ⟨fuel - 3, by omega⟩
  rcases hres : Transit r d a w2 with ⟨r3, w3, res3⟩
  rw [hres] at h3
  simp only at h3
  subst h3
  have hne1 : ¬ (1 > r.MaxRetries) := by omega
  have hne2 : ¬ (2 > r.MaxRetries) := by omega
  have hne3 : ¬ (3 > r.MaxRetries) := by omega
  constructor
  · have s1 : TransitWithRetries r d a w cancelAt (k + 3) =
        transitWithRetriesAux r d a cancelAt w1 (some e1) 2 1 [1] (k + 2) := by
      show transitWithRetriesAux r d a cancelAt w none 1 0 [] (k + 2 + 1) = _
      simp [transitWithRetriesAux, hnc 1, hne1, h1]
    have s2 : transitWithRetriesAux r d a cancelAt w1 (some e1) 2 1 [1]
        (k + 2) =
        transitWithRetriesAux r d a cancelAt w2 (some e2) 3 2 [1, 2]
          (k + 1) := by
      show transitWithRetriesAux r d a cancelAt w1 (some e1) 2 1 [1]
        (k + 1 + 1) = _
      simp [transitWithRetriesAux, hnc 2, hne2, h2]
    have s3 : transitWithRetriesAux r d a cancelAt w2 (some e2) 3 2 [1, 2]
        (k + 1) = some (r3, w3, none, 3, [1, 2, 3]) := by
      show transitWithRetriesAux r d a cancelAt w2 (some e2) 3 2 [1, 2]
        (k + 0 + 1) = _
      simp [transitWithRetriesAux, hnc 3, hne3, hres]
    rw [s1, s2, s3]
  · obtain ⟨_, u1, u2, u3, _, _, _, hr3, _⟩ :=
      transit_none_inv r r3 d a w2 w3 hres
    rw [hr3]

end Rsm

namespace Rsm

/-- C2 counterexample: `rAlwaysFails` has `MaxRetries = 1`, yet the retry
loop returns the exhaustion error after exactly 1 invocation of `Transit`
(the world records one handler run, the attempt count is 1), not 1 + 1. -/
theorem retry_attempt_count_refuted :
    TransitWithRetries rAlwaysFails "end" ([] : List String) ([] : List Nat)
      (fun _ => false) 10 =
      some (rAlwaysFails, [99],
        some "Error transitioning from start to end with error: failed",
        1, [1, 2])
    ∧ rAlwaysFails.MaxRetries = 1 ∧ (1 : Nat) ≠ 1 + 1 :=
  ⟨rfl, rfl, by decide⟩

/-- C2 witness: the amended statement applied to `rAlwaysFails` with its
always-failing handler and no cancellation. -/
theorem retries_exhausted_concrete :
    ∃ wf ef,
      TransitWithRetries rAlwaysFails "end" ([] : List String)
        ([] : List Nat) (fun _ => false) (rAlwaysFails.MaxRetries + 1) =
        some (rAlwaysFails, wf,
          some (maxRetriesReached rAlwaysFails "end" ef),
          rAlwaysFails.MaxRetries,
          List.range' 1 (rAlwaysFails.MaxRetries + 1)) ∧
      (rAlwaysFails.MaxRetries = 0 → ef = none) ∧
      (0 < rAlwaysFails.MaxRetries →
        ∃ u e, Transit rAlwaysFails "end" [] u = (rAlwaysFails, wf, some e) ∧
          ef = some e) :=
  retries_exhausted_after_maxRetries_attempts rAlwaysFails "end" [] []
    (fun _ => false) (fun u => ⟨"failed", u ++ [99], rfl⟩) (fun _ => rfl)

/-- C3 witness: the stage order applied to the fully instrumented machine
`rFull` on its legal transition. -/
theorem transit_success_stage_order_concrete :
    ∃ w1 w2 w3,
      runHook rFull.beforeTransition
        (bEvent rFull.CurrentState "end" ["1", "2"]) [] = (w1, none) ∧
      runHandlers (stageHandlers rFull rFull.CurrentState "end" StageBefore)
        (bEvent rFull.CurrentState "end" ["1", "2"]) w1 = (w2, none) ∧
      runHandlers
        (stageHandlers rFull rFull.CurrentState "end" StageInProgress)
        (iEvent rFull.CurrentState "end" ["1", "2"]) w2 = (w3, none) ∧
      Transit rFull "end" ["1", "2"] [] =
        ({ rFull with CurrentState := "end" },
         (runHook rFull.afterTransition
           (aEvent rFull.CurrentState "end" ["1", "2"])
           (runAllHandlers
             (stageHandlers rFull rFull.CurrentState "end" StageAfter)
             (aEvent rFull.CurrentState "end" ["1", "2"]) w3)).1,
         none) :=
  (transit_success_stage_order rFull "end" ["1", "2"] [] rfl).1

/-- C4 witness: on `rBeforeFails` the failing second Before-stage handler
aborts the transition with its error, the machine unchanged and only the
first Before handler recorded. -/
theorem early_failure_aborts_concrete :
    Transit rBeforeFails "end" ([] : List String) ([] : List Nat) =
      (rBeforeFails, [1], some "boom") :=
  (early_failure_aborts_unchanged rBeforeFails "end" [] rfl).2.1 [] [] [1]
    "boom" rfl rfl

/-- C5 witness: on `rAfterFails` the failing After-stage handler runs
(recording 7) yet `Transit` returns success and the committed state. -/
theorem after_stage_failures_swallowed_concrete :
    (Transit rAfterFails "end" ([] : List String) ([] : List Nat)).2.2 = none
    ∧ (Transit rAfterFails "end" [] []).1.CurrentState = "end"
    ∧ Transit rAfterFails "end" [] [] =
        ({ rAfterFails with CurrentState := "end" },
         (runHook rAfterFails.afterTransition
           (aEvent rAfterFails.CurrentState "end" [])
           (runAllHandlers
             (stageHandlers rAfterFails rAfterFails.CurrentState "end"
               StageAfter)
             (aEvent rAfterFails.CurrentState "end" []) [])).1,
         none) :=
  after_stage_failures_swallowed rAfterFails "end" [] [] [] [] []
    rfl rfl rfl rfl

/-- C7 witness: `rThirdTime` fails twice then succeeds; the loop returns
success with 3 attempts, backoff counters 1, 2, 3 and state `end`. -/
theorem retry_succeeds_on_third_attempt_concrete :
    TransitWithRetries rThirdTime "end" ([] : List String) ([] : List Nat)
      (fun _ => false) 10 =
      some ((Transit rThirdTime "end" [] [0, 0]).1,
        (Transit rThirdTime "end" [] [0, 0]).2.1, none, 3, [1, 2, 3])
    ∧ ((Transit rThirdTime "end" [] [0, 0]).1).CurrentState = "end" :=
  retry_succeeds_on_third_attempt rThirdTime "end" [] [] [0] [0, 0]
    "failed" "failed" (fun _ => false) 10 rfl rfl rfl (by decide)
    (fun _ => rfl) (by decide)

/-- C8 witness: a loop state carrying the failure "boom" at attempt
counter 2 is cancelled there and returns that failure with the attempt
count unchanged. -/
theorem cancellation_returns_last_error_concrete :
    transitWithRetriesAux rOne "end" ([] : List String) (fun i => i == 2)
      [] (some "boom") 2 1 [1] (5 + 1) =
      some (rOne, [], some "boom", 1, [1, 2])
    ∧ ((fun i : Nat => i == 2) 1 = true →
        TransitWithRetries rOne "end" [] [] (fun i => i == 2) (5 + 1) =
          some (rOne, [], none, 0, [1])) :=
  cancellation_returns_last_error rOne "end" [] [] (fun i => i == 2)
    (some "boom") 2 1 [1] 5 rfl

/-- C9 witness: after the one successful transition of `rOne` the current
state is the destination of the last successful entry of the history. -/
theorem currentState_reflects_last_success_concrete :
    rOneDone.CurrentState = (lastSuccess [("end", true)]).getD
      rOne.CurrentState
    ∧ (∀ (rr rr2 : RSM (List Nat) String) (d : String) (a : List String)
        (u u2 : List Nat) (e : String),
        Transit rr d a u = (rr2, u2, some e) → rr2 = rr)
    ∧ (∀ (rr rr2 : RSM (List Nat) String) (d : String) (a : List String)
        (u u2 : List Nat),
        Transit rr d a u = (rr2, u2, none) →
        rr2 = { rr with CurrentState := d }) :=
  currentState_reflects_last_success rOne [] rOneDone []
    ([] ++ [("end", true)])
    (Reachable.step rOne [] [] "end" [] rOneDone [] none Reachable.refl rfl)

end Rsm
